import Mathlib

/-!
Verification of the calculator core (src/calculator/main.py) and the
weather-forecast ingestion core (src/jma/main.py).

Modelling conventions:
* Python floats are modelled as exact rationals (`ℚ`) together with the
  special values `inf`, `-inf`, `nan` (type `PyFloat`).  Rational
  arithmetic is unbounded, so binary-float rounding and overflow of the
  basic operations are not modelled; every claim below is stated against
  this exact model.
* Strings are Lean `String`s (lists of characters), built and parsed by
  executable functions so concrete runs evaluate inside the kernel.
* Because `Rat.add`/`sub`/`mul`/`div` are `@[irreducible]`, the model
  uses reducible clones `qadd`/`qsub`/`qmul`/`qdiv` (proved equal to the
  library operations) so that concrete states compute by `decide`.
-/

/-- Reducible rational addition, equal to `· + ·` on `ℚ`. -/
def qadd (a b : ℚ) : ℚ := Rat.divInt (a.num * b.den + b.num * a.den) (a.den * b.den)

/-- Reducible rational subtraction, equal to `· - ·` on `ℚ`. -/
def qsub (a b : ℚ) : ℚ := Rat.divInt (a.num * b.den - b.num * a.den) (a.den * b.den)

/-- Reducible rational multiplication, equal to `· * ·` on `ℚ`. -/
def qmul (a b : ℚ) : ℚ := Rat.divInt (a.num * b.num) (a.den * b.den)

/-- Reducible rational division, equal to `· / ·` on `ℚ` (both send division by zero to zero). -/
def qdiv (a b : ℚ) : ℚ := Rat.divInt (a.num * b.den) (a.den * b.num)

/-- Reducible rational negation. -/
def qneg (a : ℚ) : ℚ := Rat.neg a

theorem qadd_eq (a b : ℚ) : qadd a b = a + b := by
  have ha : (a.den : ℚ) ≠ 0 := by positivity
  have hb : (b.den : ℚ) ≠ 0 := by positivity
  rw [qadd, Rat.divInt_eq_div]
  conv_rhs => rw [← Rat.num_div_den a, ← Rat.num_div_den b]
  rw [div_add_div _ _ ha hb]
  push_cast
  ring_nf

theorem qsub_eq (a b : ℚ) : qsub a b = a - b := by
  have ha : (a.den : ℚ) ≠ 0 := by positivity
  have hb : (b.den : ℚ) ≠ 0 := by positivity
  rw [qsub, Rat.divInt_eq_div]
  conv_rhs => rw [← Rat.num_div_den a, ← Rat.num_div_den b]
  rw [div_sub_div _ _ ha hb]
  push_cast
  ring_nf

theorem qmul_eq (a b : ℚ) : qmul a b = a * b := by
  rw [qmul, Rat.divInt_eq_div]
  conv_rhs => rw [← Rat.num_div_den a, ← Rat.num_div_den b]
  rw [div_mul_div_comm]
  push_cast
  ring_nf

theorem qdiv_eq (a b : ℚ) : qdiv a b = a / b := by
  rcases eq_or_ne b 0 with rfl | hbz
  · simp [qdiv, Rat.divInt_eq_div]
  · have ha : (a.den : ℚ) ≠ 0 := by positivity
    have hb : (b.den : ℚ) ≠ 0 := by positivity
    have hbn : (b.num : ℚ) ≠ 0 := by
      simpa using Rat.num_ne_zero.2 hbz
    rw [qdiv, Rat.divInt_eq_div]
    conv_rhs => rw [← Rat.num_div_den a, ← Rat.num_div_den b]
    rw [div_div_div_eq]
    push_cast
    ring_nf

theorem qneg_eq (a : ℚ) : qneg a = -a := rfl

/-- Embedding of an integer as a rational, by `mkRat` so it reduces. -/
def intQ (n : ℤ) : ℚ := mkRat n 1

theorem intQ_eq (n : ℤ) : intQ n = (n : ℚ) := by
  simp [intQ, mkRat, Rat.normalize]

/-- A Python float value: an exact rational, or one of the special values. -/
inductive PyFloat where
  | finite (q : ℚ)
  | inf
  | ninf
  | nan
deriving DecidableEq, Repr

/-- digitChar d is the decimal digit character for d (mod 10). -/
def digitChar (d : ℕ) : Char :=
  match d % 10 with
  | 0 => '0' | 1 => '1' | 2 => '2' | 3 => '3' | 4 => '4'
  | 5 => '5' | 6 => '6' | 7 => '7' | 8 => '8' | _ => '9'

/-- Numeric value of a decimal digit character. -/
def digVal (c : Char) : ℕ := c.toNat - 48

/-- Whether a character is a decimal digit. -/
def isDigitChar (c : Char) : Bool := 48 ≤ c.toNat && c.toNat ≤ 57

/-- Decimal digit characters of a natural number, most significant first.
Fuel-based so that it reduces in the kernel; `natChars n` uses fuel `n + 1`,
which always suffices. -/
def natCharsAux : ℕ → ℕ → List Char → List Char
  | 0, _, acc => acc
  | fuel + 1, n, acc =>
    if n < 10 then digitChar n :: acc
    else natCharsAux fuel (n / 10) (digitChar (n % 10) :: acc)

/-- Decimal digit characters of a natural number (e.g. `natChars 120 = ['1','2','0']`). -/
def natChars (n : ℕ) : List Char := natCharsAux (n + 1) n []

/-- Decimal rendering of an integer, mirroring Python `str` on `int`. -/
def intChars (n : ℤ) : List Char :=
  if n < 0 then '-' :: natChars n.natAbs else natChars n.natAbs

/-- Decimal string of an integer. -/
def intRepr (n : ℤ) : String := ⟨intChars n⟩

/-- Reads a maximal prefix of decimal digit characters. -/
def readDigits : List Char → List Char × List Char
  | [] => ([], [])
  | c :: r =>
    if isDigitChar c then
      let p := readDigits r
      (c :: p.1, p.2)
    else ([], c :: r)

/-- Value of a list of digit characters read most-significant-first. -/
def digitsVal (cs : List Char) : ℕ := cs.foldl (fun a c => 10 * a + digVal c) 0

/-- Reads an optional leading sign, returning `true` for a minus sign. -/
def readSign : List Char → Bool × List Char
  | [] => (false, [])
  | c :: r =>
    if c = '-' then (true, r) else if c = '+' then (false, r) else (false, c :: r)

/-- Ten to an integer power, as a rational (reducible). -/
def qpow10 (e : ℤ) : ℚ :=
  if 0 ≤ e then mkRat ((10 : ℤ) ^ e.toNat) 1 else mkRat 1 ((10 : ℕ) ^ (-e).toNat)

/-- Model of Python `float(s)` on the strings this program produces: an
optional sign, integer digits, an optional fractional part, and an optional
exponent part.  Returns `none` when Python `float` would raise `ValueError`.
(Whitespace, underscores, and the words inf and nan are accepted by Python
but can never appear on the calculator display, so they are not modelled.) -/
def parseFloat (s : String) : Option ℚ :=
  let p0 := readSign s.data
  let p1 := readDigits p0.2
  let ip := p1.1
  let p2 : List Char × List Char :=
    match p1.2 with
    | '.' :: r => readDigits r
    | cs => ([], cs)
  let fp := p2.1
  if ip = [] ∧ fp = [] then none
  else
    let base : ℚ := qadd (mkRat (digitsVal ip) 1) (mkRat (digitsVal fp) (10 ^ fp.length))
    let signed : ℚ := if p0.1 then qneg base else base
    match p2.2 with
    | [] => some signed
    | c :: r =>
      if c = 'e' ∨ c = 'E' then
        let p3 := readSign r
        let p4 := readDigits p3.2
        if p4.1 = [] ∨ p4.2 ≠ [] then none
        else
          let e : ℤ := if p3.1 then -(digitsVal p4.1 : ℤ) else (digitsVal p4.1 : ℤ)
          some (qmul signed (qpow10 e))
      else none

/-- Model of Python `int(s)`: optional sign and decimal digits only. -/
def parsePyInt (s : String) : Option ℤ :=
  let p0 := readSign s.data
  let p1 := readDigits p0.2
  if p1.1 = [] ∨ p1.2 ≠ [] then none
  else some (if p0.1 then -(digitsVal p1.1 : ℤ) else (digitsVal p1.1 : ℤ))

/-- Round half to even (the rounding used by Python `round` and float
formatting), on an exact rational. -/
def rhe (q : ℚ) : ℤ :=
  let f := Rat.floor q
  let r := qsub q (mkRat f 1)
  if r < mkRat 1 2 then f
  else if mkRat 1 2 < r then f + 1
  else if f % 2 = 0 then f else f + 1

/-- Left-pad a digit-character list with zeros to the given length. -/
def padZeros (k : ℕ) (cs : List Char) : List Char :=
  List.replicate (k - cs.length) '0' ++ cs

/-- Drop trailing zero characters. -/
def dropTrailingZeros (cs : List Char) : List Char :=
  (cs.reverse.dropWhile (· = '0')).reverse

/-- Rendering of `str(round(num, 10))` in the exact model: `m` is the value
scaled by `10^10` and rounded to an integer.  An integral result renders
with a trailing `.0` as Python `str` does on an integral float; otherwise
the exact fractional digits are emitted with trailing zeros dropped
(Python shortest round-tripping repr of the rounded value). -/
def decChars (m : ℤ) : List Char :=
  if m % (10 ^ 10 : ℕ) = 0 then intChars (m / (10 ^ 10 : ℕ)) ++ ['.', '0']
  else
    (if m < 0 then ['-'] else []) ++
      natChars (m.natAbs / 10 ^ 10) ++ '.' ::
        dropTrailingZeros (padZeros 10 (natChars (m.natAbs % 10 ^ 10)))

/-- Mantissa (scaled to three digits, in `[100, 999]`) and decimal exponent
used by the scientific rendering `f-string {:.2e}`. -/
def sciParts (q : ℚ) : ℕ × ℕ :=
  let a := |q|
  let e := (natChars (Rat.floor a).toNat).length - 1
  let m := rhe (qdiv (qmul a (mkRat 100 1)) (qpow10 e))
  if 1000 ≤ m then (100, e + 1) else (m.toNat, e)

/-- Scientific rendering mirroring Python `f"{num:.2e}"` for `|q| > 1e10`
(positive exponent, at least two exponent digits in that range). -/
def sciChars (q : ℚ) : List Char :=
  let p := sciParts q
  (if q < 0 then ['-'] else []) ++
    digitChar (p.1 / 100) :: '.' :: digitChar (p.1 / 10) :: digitChar p.1 ::
      'e' :: '+' :: natChars p.2

/-- The error literal written by the calculator. -/
def errLit : String := "エラー"

/-- Model of `Calculator.format_number` (src/calculator/main.py lines 25-34). -/
def format_number (num : PyFloat) : String :=
  match num with
  | .nan => errLit
  | .inf => errLit
  | .ninf => errLit
  | .finite q =>
    if mkRat (10 ^ 10) 1 < |q| then ⟨sciChars q⟩
    else if q.den = 1 then intRepr q.num
    else ⟨decChars (rhe (qmul q (mkRat (10 ^ 10) 1)))⟩

/-- Does the string start with the error literal (Python
`str.startswith("エラー")`)? -/
def isErrorStr (s : String) : Bool := s.data.take 3 == errLit.data

/-- Model of `Calculator.calculate_factorial` (src/calculator/main.py lines
37-49).  The argument is the parsed display value; `float(n).is_integer()`
is `q.den = 1` in the exact model, and `float(result)` is the identity. -/
def calculate_factorial (q : ℚ) : String :=
  if q.den ≠ 1 then "エラー: 整数のみ"
  else if q.num < 0 then "エラー: 正の数のみ"
  else if 170 < q.num then "エラー: 数が大きすぎます"
  else format_number (.finite (mkRat (Nat.factorial q.num.toNat) 1))

/-- Model of `Calculator.calculate` (src/calculator/main.py lines 52-62):
dispatch on the operator symbol; `÷` yields `float('inf')` on a zero right
operand; an unknown symbol raises `KeyError`, caught and rendered as the
error literal. -/
def calculate (operand1 operand2 : ℚ) (operator : String) : String :=
  if operator = "+" then format_number (.finite (qadd operand1 operand2))
  else if operator = "-" then format_number (.finite (qsub operand1 operand2))
  else if operator = "×" then format_number (.finite (qmul operand1 operand2))
  else if operator = "÷" then
    if operand2 ≠ 0 then format_number (.finite (qdiv operand1 operand2))
    else format_number .inf
  else errLit

/-- Approximation of the double produced by `math.sqrt`; the claims do not
depend on its value, only on the domain check in `calculate_sqrt`. -/
def sqrtApprox (q : ℚ) : ℚ := mkRat (Nat.sqrt (q.num.toNat * q.den)) q.den

/-- Model of `Calculator.calculate_sqrt` (src/calculator/main.py lines 65-72). -/
def calculate_sqrt (q : ℚ) : String :=
  if q < 0 then "エラー: 負の数の平方根"
  else format_number (.finite (sqrtApprox q))

/-- The double value of Python `math.pi`. -/
def piQ : ℚ := mkRat 884279719003555 281474976710656

/-- State of the `Calculator` object: `memory`, and the fields set by
`reset` (`operator`, `operand1`, `new_operand`). -/
structure Calc where
  memory : ℚ
  operator : String
  operand1 : ℚ
  new_operand : Bool
deriving DecidableEq, Repr

/-- Model of `Calculator.reset` (src/calculator/main.py lines 19-22). -/
def Calc.reset (c : Calc) : Calc :=
  { c with operator := "+", operand1 := 0, new_operand := true }

/-- State of `CalculatorApp`: the calculator object plus the display text. -/
structure AppState where
  calculator : Calc
  display : String
deriving DecidableEq, Repr

/-- The state after `Calculator.__init__` with display "0". -/
def initState : AppState :=
  { calculator := { memory := 0, operator := "+", operand1 := 0, new_operand := true }
    display := "0" }

/-- Error message used when `float(display)` raises, as caught by the
handlers' `except` clauses (`f"エラー: {str(e)}"`). -/
def floatErr (s : String) : String :=
  "エラー: could not convert string to float: " ++ s

/-- Model of `CalculatorApp.handle_memory_operation` (lines 217-234).  Note
that `float(self.display.value)` runs before dispatching, so every memory
operation fails (and leaves `memory` untouched) when the display does not
parse; the handler catches the exception itself. -/
def handle_memory_operation (s : AppState) (operation : String) : AppState :=
  match parseFloat s.display with
  | none => { s with display := floatErr s.display }
  | some current =>
    if operation = "MC" then { s with calculator.memory := 0 }
    else if operation = "MR" then
      { s with display := format_number (.finite s.calculator.memory), calculator.new_operand := false }
    else if operation = "M+" then { s with calculator.memory := qadd s.calculator.memory current }
    else if operation = "M-" then { s with calculator.memory := qsub s.calculator.memory current }
    else s

/-- Model of `CalculatorApp._handle_clear` (lines 300-302). -/
def handle_clear (s : AppState) : AppState :=
  { s with display := "0", calculator := s.calculator.reset }

/-- Model of `CalculatorApp._handle_factorial` (lines 305-308). -/
def handle_factorial (s : AppState) : AppState :=
  match parseFloat s.display with
  | none => { s with display := floatErr s.display }
  | some v =>
    { s with display := calculate_factorial v, calculator.new_operand := true }

/-- Model of `CalculatorApp._handle_sqrt` (lines 311-313). -/
def handle_sqrt (s : AppState) : AppState :=
  match parseFloat s.display with
  | none => { s with display := floatErr s.display }
  | some v =>
    { s with display := calculate_sqrt v, calculator.new_operand := true }

/-- Model of `CalculatorApp._handle_pi` (lines 316-318). -/
def handle_pi (s : AppState) : AppState :=
  { s with display := format_number (.finite piQ), calculator.new_operand := false }

/-- Model of `CalculatorApp._handle_square` (lines 321-324); the lambda
`x * x` never raises, so `calculate_function` is just formatting. -/
def handle_square (s : AppState) : AppState :=
  match parseFloat s.display with
  | none => { s with display := floatErr s.display }
  | some v =>
    { s with display := format_number (.finite (qmul v v)), calculator.new_operand := true }

/-- Model of `CalculatorApp._handle_reciprocal` (lines 327-330); `1 / x`
raises `ZeroDivisionError` at zero, which `calculate_function` renders as
its dedicated error string. -/
def handle_reciprocal (s : AppState) : AppState :=
  match parseFloat s.display with
  | none => { s with display := floatErr s.display }
  | some v =>
    let d := if v = 0 then "エラー: ゼロ除算"
             else format_number (.finite (qdiv (mkRat 1 1) v))
    { s with display := d, calculator.new_operand := true }

/-- Model of `CalculatorApp._handle_digit` (lines 333-340). -/
def handle_digit (s : AppState) (digit : String) : AppState :=
  if s.calculator.new_operand then
    { s with display := digit, calculator.new_operand := false }
  else if digit = "." ∧ '.' ∈ s.display.data then s
  else { s with display := s.display ++ digit }

/-- Model of `CalculatorApp._handle_operator` (lines 343-352).  The display
is assigned the evaluation result first; if the result is not an error
string it is parsed back into `operand1`, and a parse failure there (after
`display` and `operator` are already updated) propagates to
`button_clicked`'s `except`, which overwrites the display. -/
def handle_operator (s : AppState) (operator : String) : AppState :=
  match parseFloat s.display with
  | none => { s with display := floatErr s.display }
  | some v =>
    let d := calculate s.calculator.operand1 v s.calculator.operator
    if isErrorStr d then
      { s with display := d, calculator.operator := operator, calculator.new_operand := true }
    else
      match parseFloat d with
      | some w =>
        { s with
            display := d
            calculator :=
              { s.calculator with
                  operator := operator, operand1 := w, new_operand := true } }
      | none =>
        { s with display := floatErr d, calculator.operator := operator }

/-- Model of `CalculatorApp._handle_equals` (lines 355-361): evaluate with
the pending operator, then `reset()`.  A display that fails to parse raises
before any mutation, so the reset does not happen on that path. -/
def handle_equals (s : AppState) : AppState :=
  match parseFloat s.display with
  | none => { s with display := floatErr s.display }
  | some v =>
    { s with display := calculate s.calculator.operand1 v s.calculator.operator
             calculator := s.calculator.reset }

/-- Model of `CalculatorApp._handle_percentage` (lines 364-367). -/
def handle_percentage (s : AppState) : AppState :=
  match parseFloat s.display with
  | none => { s with display := floatErr s.display }
  | some v =>
    { s with display := format_number (.finite (qdiv v (mkRat 100 1)))
             calculator.new_operand := true }

/-- Model of `CalculatorApp._handle_sign_change` (lines 370-372); the zero
case is special-cased so the formatted result is `format_number(0)`. -/
def handle_sign_change (s : AppState) : AppState :=
  match parseFloat s.display with
  | none => { s with display := floatErr s.display }
  | some v =>
    { s with display := format_number (.finite (if v ≠ 0 then qneg v else 0)) }

/-- The digit-button labels (`data in "0123456789."` for single-character
button labels). -/
def digitKeys : List String :=
  ["0", "1", "2", "3", "4", "5", "6", "7", "8", "9", "."]

/-- Model of `CalculatorApp.button_clicked` (src/calculator/main.py lines
262-297): memory operations are dispatched first; otherwise an error
display (or AC) is handled as a clear before anything else; then the
remaining buttons dispatch to their handlers. -/
def button_clicked (s : AppState) (data : String) : AppState :=
  if data = "MC" ∨ data = "MR" ∨ data = "M+" ∨ data = "M-" then
    handle_memory_operation s data
  else if isErrorStr s.display ∨ data = "AC" then handle_clear s
  else if data = "n!" then handle_factorial s
  else if data = "√" then handle_sqrt s
  else if data = "π" then handle_pi s
  else if data = "x²" then handle_square s
  else if data = "¹/x" then handle_reciprocal s
  else if data ∈ digitKeys then handle_digit s data
  else if data = "+" ∨ data = "-" ∨ data = "×" ∨ data = "÷" then
    handle_operator s data
  else if data = "=" then handle_equals s
  else if data = "%" then handle_percentage s
  else if data = "+/-" then handle_sign_change s
  else s

/-- Folds a list of button presses over the app state. -/
def pressAll (s : AppState) (keys : List String) : AppState :=
  keys.foldl button_clicked s

/-- One entry of `time_series["areas"]` in the forecast payload: the area
code and name, and the optional parallel arrays.  `none` models a key
absent from the JSON object. -/
structure AreaEntry where
  code : String
  name : String
  weathers : Option (List String)
  temps : Option (List String)
  pops : Option (List String)
  winds : Option (List String)
  windLevels : Option (List String)
deriving DecidableEq, Repr

/-- One block of `forecast_data["timeSeries"]`. -/
structure TimeSeries where
  timeDefines : List String
  areas : List AreaEntry
deriving DecidableEq, Repr

/-- The forecast payload `data[0]`; timestamps are kept as opaque strings
(`datetime.fromisoformat` is modelled as the identity on them). -/
structure Payload where
  reportDatetime : String
  timeSeries : List TimeSeries
deriving DecidableEq, Repr

/-- The `WeatherForecast` record (src/jma/main.py lines 36-47). -/
structure WeatherForecast where
  area_code : String
  area_name : String
  forecast_date : String
  report_datetime : String
  weather : Option String
  temperature_high : Option ℚ
  temperature_low : Option ℚ
  precipitation_probability : Option ℤ
  wind_direction : Option String
  wind_speed : Option String
deriving DecidableEq, Repr

/-- `area.get(key, [""])[i] if key in area else None`: absent array gives
`None`; a present array is indexed, raising `IndexError` past its end. -/
def seqField (arr : Option (List String)) (i : ℕ) : Except String (Option String) :=
  match arr with
  | none => .ok none
  | some l =>
    match l.get? i with
    | none => .error "IndexError"
    | some w => .ok (some w)

/-- `float(area["temps"][i]) if "temps" in area and area["temps"][i] else
None`: the guard itself indexes the array, so a present-but-short array
raises `IndexError`; an empty string gives `None`; otherwise the string is
parsed (`ValueError` on junk). -/
def tempHighField (arr : Option (List String)) (i : ℕ) : Except String (Option ℚ) :=
  match arr with
  | none => .ok none
  | some l =>
    match l.get? i with
    | none => .error "IndexError"
    | some t =>
      if t = "" then .ok none
      else
        match parseFloat t with
        | some v => .ok (some v)
        | none => .error "ValueError"

/-- `float(area["temps"][i+1]) if "temps" in area and len(area["temps"]) >
i+1 and area["temps"][i+1] else None`: unlike the high-temperature access,
the `i+1` access is length-guarded, so a short array yields `None`. -/
def tempLowField (arr : Option (List String)) (i : ℕ) : Except String (Option ℚ) :=
  match arr with
  | none => .ok none
  | some l =>
    match l.get? (i + 1) with
    | none => .ok none
    | some t =>
      if t = "" then .ok none
      else
        match parseFloat t with
        | some v => .ok (some v)
        | none => .error "ValueError"

/-- `int(area["pops"][i]) if "pops" in area and area["pops"][i] else None`:
same unguarded indexing as the high temperature, parsed with `int`. -/
def popField (arr : Option (List String)) (i : ℕ) : Except String (Option ℤ) :=
  match arr with
  | none => .ok none
  | some l =>
    match l.get? i with
    | none => .error "IndexError"
    | some t =>
      if t = "" then .ok none
      else
        match parsePyInt t with
        | some v => .ok (some v)
        | none => .error "ValueError"

/-- Builds the `WeatherForecast` for one area and one index of
`timeDefines` (the record constructed at src/jma/main.py lines 471-482),
with the field expressions evaluated in source order. -/
def buildForecast (rep : String) (a : AreaEntry) (t : String) (i : ℕ) :
    Except String WeatherForecast :=
  match seqField a.weathers i with
  | .error e => .error e
  | .ok w =>
    match tempHighField a.temps i with
    | .error e => .error e
    | .ok th =>
      match tempLowField a.temps i with
      | .error e => .error e
      | .ok tl =>
        match popField a.pops i with
        | .error e => .error e
        | .ok pp =>
          match seqField a.winds i with
          | .error e => .error e
          | .ok wd =>
            match seqField a.windLevels i with
            | .error e => .error e
            | .ok wsp =>
              .ok { area_code := a.code, area_name := a.name, forecast_date := t
                    report_datetime := rep, weather := w, temperature_high := th
                    temperature_low := tl, precipitation_probability := pp
                    wind_direction := wd, wind_speed := wsp }

/-- Inner loop over `enumerate(timeDefines)`: records saved so far, plus
the first uncaught exception if one occurs (which aborts the iteration). -/
def ingestTimes (rep : String) (a : AreaEntry) :
    List String → ℕ → List WeatherForecast × Option String
  | [], _ => ([], none)
  | t :: rest, i =>
    match buildForecast rep a t i with
    | .error e => ([], some e)
    | .ok r =>
      let p := ingestTimes rep a rest (i + 1)
      (r :: p.1, p.2)

/-- Loop over `time_series["areas"]`. -/
def ingestAreas (rep : String) (tds : List String) :
    List AreaEntry → List WeatherForecast × Option String
  | [] => ([], none)
  | a :: rest =>
    let p := ingestTimes rep a tds 0
    match p.2 with
    | some e => (p.1, some e)
    | none =>
      let q := ingestAreas rep tds rest
      (p.1 ++ q.1, q.2)

/-- Loop over `forecast_data["timeSeries"]`. -/
def ingestSeries (rep : String) : List TimeSeries → List WeatherForecast × Option String
  | [] => ([], none)
  | ts :: rest =>
    let p := ingestAreas rep ts.timeDefines ts.areas
    match p.2 with
    | some e => (p.1, some e)
    | none =>
      let q := ingestSeries rep rest
      (p.1 ++ q.1, q.2)

/-- Model of `WeatherApp.save_current_forecast` (src/jma/main.py lines
452-484) as a pure function: the records passed to `db.save_forecast`, in
order, together with the exception (if any) that escapes to
`fetch_forecast`'s handlers after those records were already saved. -/
def save_current_forecast (p : Payload) : List WeatherForecast × Option String :=
  ingestSeries p.reportDatetime p.timeSeries

/-- The fixed override table `self.area_code_mapping` (lines 216-218). -/
def area_code_mapping : List (String × String) := [("014030", "014100")]

/-- The code actually fetched:
`self.area_code_mapping.get(area_code, area_code)` (line 426). -/
def mappedCode (area_code : String) : String :=
  ((area_code_mapping.lookup area_code).getD area_code)

/-- Model of the data flow of `WeatherApp.fetch_forecast` (lines 420-450):
the first component is the code interpolated into the request URL, the
second is what `save_current_forecast` stores for the fetched payload. -/
def fetch_forecast (area_code : String) (payload : Payload) :
    String × (List WeatherForecast × Option String) :=
  (mappedCode area_code, save_current_forecast payload)

/-- One row of `self.areas`, as loaded by `get_all_areas`:
`{'name': ..., 'parent': ..., 'type': ...}`. -/
structure AreaInfo where
  name : String
  parent : Option String
  type : String
deriving DecidableEq, Repr

/-- One value of the `groups` dictionary in `group_areas`:
`{"info": ..., "children": {...}}`. -/
structure AreaGroup where
  info : Option (String × String)
  children : List (String × String)
deriving DecidableEq, Repr

/-- `groups[code]["info"] = {...}` on the defaultdict: update the existing
entry or append a fresh one. -/
def setGroupInfo (groups : List (String × AreaGroup)) (code name : String) :
    List (String × AreaGroup) :=
  if (groups.lookup code).isSome then
    groups.map fun kg =>
      if kg.1 = code then (kg.1, { kg.2 with info := some (code, name) }) else kg
  else groups ++ [(code, { info := some (code, name), children := [] })]

/-- `groups[parent_code]["children"][code] = {...}`; only ever called when
`parent_code in groups`. -/
def addGroupChild (groups : List (String × AreaGroup)) (parent code name : String) :
    List (String × AreaGroup) :=
  groups.map fun kg =>
    if kg.1 = parent then (kg.1, { kg.2 with children := kg.2.children ++ [(code, name)] })
    else kg

/-- One iteration of the loop in `group_areas` (lines 407-416): a center
creates/fills its group; any other type is an office, attached under its
parent only when `parent_code in groups` (a membership test on the
defaultdict, which does not insert). -/
def groupStep (groups : List (String × AreaGroup)) (ca : String × AreaInfo) :
    List (String × AreaGroup) :=
  if ca.2.type = "center" then setGroupInfo groups ca.1 ca.2.name
  else
    match ca.2.parent with
    | none => groups
    | some p => if (groups.lookup p).isSome then addGroupChild groups p ca.1 ca.2.name
                else groups

/-- Model of `WeatherApp.group_areas` (src/jma/main.py lines 403-418) on
the ordered association list of loaded areas. -/
def group_areas (areas : List (String × AreaInfo)) : List (String × AreaGroup) :=
  areas.foldl groupStep []

/-- All office codes appearing as children anywhere in a grouped view. -/
def childCodes (groups : List (String × AreaGroup)) : List String :=
  groups.flatMap fun kg => kg.2.children.map Prod.fst

/-- The codes of the centers among the loaded areas. -/
def centerCodes (areas : List (String × AreaInfo)) : List String :=
  (areas.filter fun ca => ca.2.type = "center").map Prod.fst

theorem digVal_digitChar (d : ℕ) : digVal (digitChar d) = d % 10 := by
  have h : d % 10 < 10 := Nat.mod_lt _ (by norm_num)
  rcases (by omega : d % 10 = 0 ∨ d % 10 = 1 ∨ d % 10 = 2 ∨ d % 10 = 3 ∨ d % 10 = 4 ∨
      d % 10 = 5 ∨ d % 10 = 6 ∨ d % 10 = 7 ∨ d % 10 = 8 ∨ d % 10 = 9) with
    h0 | h0 | h0 | h0 | h0 | h0 | h0 | h0 | h0 | h0 <;>
    simp [digitChar, digVal, h0]

theorem isDigitChar_digitChar (d : ℕ) : isDigitChar (digitChar d) = true := by
  have h : d % 10 < 10 := Nat.mod_lt _ (by norm_num)
  rcases (by omega : d % 10 = 0 ∨ d % 10 = 1 ∨ d % 10 = 2 ∨ d % 10 = 3 ∨ d % 10 = 4 ∨
      d % 10 = 5 ∨ d % 10 = 6 ∨ d % 10 = 7 ∨ d % 10 = 8 ∨ d % 10 = 9) with
    h0 | h0 | h0 | h0 | h0 | h0 | h0 | h0 | h0 | h0 <;>
    simp [digitChar, h0] <;> rfl

theorem natCharsAux_acc (fuel : ℕ) :
    ∀ (n : ℕ) (acc : List Char),
      natCharsAux fuel n acc = natCharsAux fuel n [] ++ acc := by
  induction fuel with
  | zero => intro n acc; simp [natCharsAux]
  | succ f ih =>
    intro n acc
    by_cases h : n < 10
    · simp [natCharsAux, h]
    · simp only [natCharsAux, if_neg h]
      rw [ih (n / 10) (digitChar (n % 10) :: acc), ih (n / 10) [digitChar (n % 10)]]
      simp

theorem natCharsAux_val (fuel : ℕ) :
    ∀ n a, n < 10 ^ fuel →
      (natCharsAux fuel n []).foldl (fun a c => 10 * a + digVal c) a
        = a * 10 ^ (natCharsAux fuel n []).length + n := by
  induction fuel with
  | zero =>
    intro n a h
    interval_cases n
    simp [natCharsAux]
  | succ f ih =>
    intro n a h
    by_cases h10 : n < 10
    · simp [natCharsAux, h10, digVal_digitChar, Nat.mod_eq_of_lt h10]
      ring
    · have hdiv : n / 10 < 10 ^ f := by
        rw [Nat.div_lt_iff_lt_mul (by norm_num)]
        calc n < 10 ^ (f + 1) := h
        _ = 10 ^ f * 10 := by ring
      rw [show natCharsAux (f + 1) n [] =
            natCharsAux f (n / 10) [] ++ [digitChar (n % 10)] by
          rw [natCharsAux, if_neg h10, natCharsAux_acc]]
      rw [List.foldl_append, ih (n / 10) a hdiv]
      simp only [List.foldl_cons, List.foldl_nil, List.length_append, List.length_cons,
        List.length_nil, digVal_digitChar]
      have hmod := Nat.div_add_mod n 10
      have hm : n % 10 % 10 = n % 10 := Nat.mod_mod_of_dvd _ dvd_rfl
      ring_nf
      omega

theorem digitsVal_natChars (n : ℕ) : digitsVal (natChars n) = n := by
  have h : n < 10 ^ (n + 1) := by
    calc n < 10 ^ n := Nat.lt_pow_self (by norm_num) n
    _ ≤ 10 ^ (n + 1) := Nat.pow_le_pow_right (by norm_num) (by omega)
  simpa [digitsVal, natChars] using natCharsAux_val (n + 1) n 0 h

theorem natCharsAux_digits (fuel : ℕ) :
    ∀ n c, c ∈ natCharsAux fuel n [] → isDigitChar c = true := by
  induction fuel with
  | zero => intro n c hc; simp [natCharsAux] at hc
  | succ f ih =>
    intro n c hc
    by_cases h10 : n < 10
    · simp [natCharsAux, h10] at hc
      subst hc
      exact isDigitChar_digitChar n
    · rw [show natCharsAux (f + 1) n [] =
            natCharsAux f (n / 10) [] ++ [digitChar (n % 10)] by
          rw [natCharsAux, if_neg h10, natCharsAux_acc]] at hc
      rcases List.mem_append.1 hc with h | h
      · exact ih _ _ h
      · simp at h
        subst h
        exact isDigitChar_digitChar (n % 10)

theorem natChars_digits (n : ℕ) : ∀ c ∈ natChars n, isDigitChar c = true :=
  fun c hc => natCharsAux_digits (n + 1) n c hc

theorem natChars_ne_nil (n : ℕ) : natChars n ≠ [] := by
  unfold natChars
  by_cases h : n < 10
  · simp [natCharsAux, h]
  · rw [show natCharsAux (n + 1) n [] =
          natCharsAux n (n / 10) [] ++ [digitChar (n % 10)] by
        rw [natCharsAux, if_neg h, natCharsAux_acc]]
    simp

theorem readDigits_append (ds rest : List Char)
    (hds : ∀ c ∈ ds, isDigitChar c = true)
    (hrest : ∀ c, rest.head? = some c → isDigitChar c = false) :
    readDigits (ds ++ rest) = (ds, rest) := by
  induction ds with
  | nil =>
    cases rest with
    | nil => rfl
    | cons c r => simp [readDigits, hrest c rfl]
  | cons c ds ih =>
    have hc : isDigitChar c = true := hds c (by simp)
    have ihr := ih fun x hx => hds x (by simp [hx])
    simp [readDigits, hc, ihr]

theorem readDigits_all (ds : List Char) (hds : ∀ c ∈ ds, isDigitChar c = true) :
    readDigits ds = (ds, []) := by
  simpa using readDigits_append ds [] hds (by simp)

theorem intChars_no_dot (n : ℤ) : '.' ∉ intChars n := by
  intro h
  unfold intChars at h
  have hd : ∀ c ∈ natChars n.natAbs, isDigitChar c = true := natChars_digits _
  by_cases hn : n < 0
  · rw [if_pos hn] at h
    rcases List.mem_cons.1 h with h | h
    · exact absurd h (by decide)
    · exact absurd (hd _ h) (by decide)
  · rw [if_neg hn] at h
    exact absurd (hd _ h) (by decide)

theorem mkRat_one_eq (n : ℤ) : mkRat n 1 = (n : ℚ) := intQ_eq n

theorem readSign_digits (ds : List Char) (hds : ∀ c ∈ ds, isDigitChar c = true) :
    readSign ds = (false, ds) := by
  cases ds with
  | nil => rfl
  | cons c r =>
    have hc := hds c (by simp)
    have h1 : c ≠ '-' := by rintro rfl; exact absurd hc (by decide)
    have h2 : c ≠ '+' := by rintro rfl; exact absurd hc (by decide)
    simp [readSign, h1, h2]

theorem parseFloat_digits_core (neg : Bool) (ds : List Char)
    (hds : ∀ c ∈ ds, isDigitChar c = true) (hne : ds ≠ []) :
    parseFloat ⟨(if neg then ['-'] else []) ++ ds⟩
      = some (if neg then -((digitsVal ds : ℤ) : ℚ) else ((digitsVal ds : ℤ) : ℚ)) := by
  have hrd : readDigits ds = (ds, []) := readDigits_all ds hds
  have hsign : readSign ((if neg then ['-'] else []) ++ ds)
      = (neg, ds) := by
    cases neg with
    | false => simpa using readSign_digits ds hds
    | true => simp [readSign]
  rw [parseFloat]
  simp only [hsign, hrd]
  rw [if_neg (by simp [hne])]
  simp only [digitsVal, List.foldl_nil, List.length_nil, pow_zero]
  have hbase : qadd (mkRat ((ds.foldl (fun a c => 10 * a + digVal c) 0 : ℕ) : ℤ) 1)
      (mkRat ((0 : ℕ) : ℤ) 1) = ((digitsVal ds : ℤ) : ℚ) := by
    rw [qadd_eq, mkRat_one_eq, mkRat_one_eq]
    simp [digitsVal]
  have hq : ∀ x : ℕ, qadd (x : ℚ) 0 = (x : ℚ) := fun x => by rw [qadd_eq]; ring
  cases neg with
  | false => simp [hbase, qneg_eq, hq]
  | true => simp [hbase, qneg_eq, hq]

theorem parseFloat_intRepr (n : ℤ) : parseFloat (intRepr n) = some (n : ℚ) := by
  have hd := natChars_digits n.natAbs
  have hne := natChars_ne_nil n.natAbs
  by_cases hn : n < 0
  · have := parseFloat_digits_core true (natChars n.natAbs) hd hne
    rw [show intRepr n = ⟨(if true then ['-'] else []) ++ natChars n.natAbs⟩ by
      simp [intRepr, intChars, if_pos hn]]
    rw [this, digitsVal_natChars]
    have habs : ((n.natAbs : ℤ) : ℚ) = -(n : ℚ) := by
      have h2 : (n.natAbs : ℤ) = -n := by omega
      rw [h2]; push_cast; ring
    rw [if_pos rfl, habs]
    ring_nf
  · have := parseFloat_digits_core false (natChars n.natAbs) hd hne
    rw [show intRepr n = ⟨(if false then ['-'] else []) ++ natChars n.natAbs⟩ by
      simp [intRepr, intChars, if_neg hn]]
    rw [this, digitsVal_natChars]
    have habs : ((n.natAbs : ℤ) : ℚ) = (n : ℚ) := by
      have h2 : (n.natAbs : ℤ) = n := by omega
      rw [h2]
    rw [if_neg (by simp), habs]

theorem mkRat_pow10_eq : mkRat ((10 : ℤ) ^ 10) 1 = ((10 : ℚ) ^ 10) := by
  rw [mkRat_one_eq]
  push_cast
  ring

theorem format_number_intCast (n : ℤ) (h : |n| ≤ 10 ^ 10) :
    format_number (.finite (n : ℚ)) = intRepr n := by
  have hden : ((n : ℚ)).den = 1 := Rat.den_intCast n
  have habs : ¬ (mkRat ((10 : ℤ) ^ 10) 1 < |(n : ℚ)|) := by
    rw [mkRat_pow10_eq]
    rw [show |(n : ℚ)| = ((|n| : ℤ) : ℚ) by push_cast; rfl]
    push_cast
    exact_mod_cast not_lt.2 (by exact_mod_cast h)
  rw [format_number, if_neg habs, if_pos hden, Rat.num_intCast]

theorem sciChars_shape (q : ℚ) :
    ∃ sgn es, (sgn = [] ∨ sgn = ['-']) ∧ es ≠ [] ∧ (∀ c ∈ es, isDigitChar c = true) ∧
      ∃ d0 d1 d2, isDigitChar d0 = true ∧ isDigitChar d1 = true ∧ isDigitChar d2 = true ∧
        sciChars q = sgn ++ d0 :: '.' :: d1 :: d2 :: 'e' :: '+' :: es := by
  refine ⟨if q < 0 then ['-'] else [], natChars (sciParts q).2, ?_, natChars_ne_nil _,
    natChars_digits _, digitChar ((sciParts q).1 / 100), digitChar ((sciParts q).1 / 10),
    digitChar (sciParts q).1, isDigitChar_digitChar _, isDigitChar_digitChar _,
    isDigitChar_digitChar _, rfl⟩
  by_cases h : q < 0 <;> simp [h]

/-- C2: format_number is pure, total and deterministic (it is a Lean
function); NaN and the infinities map to the error literal; magnitudes
above `1e10` render in scientific form with a sign, one leading digit,
exactly two fractional digits, and a nonempty exponent; integral values of
magnitude at most `1e10` render as the plain integer string, with no
decimal point, and parsing that string recovers the value exactly; all
other values render as the decimal string of the value rounded to 10
decimal places (round half to even). -/
theorem C2_format_number :
    (format_number .nan = errLit ∧ format_number .inf = errLit ∧
      format_number .ninf = errLit)
    ∧ (∀ q : ℚ, (10 : ℚ) ^ 10 < |q| →
        ∃ sgn es, (sgn = [] ∨ sgn = ['-']) ∧ es ≠ [] ∧
          (∀ c ∈ es, isDigitChar c = true) ∧
          ∃ d0 d1 d2, isDigitChar d0 = true ∧ isDigitChar d1 = true ∧
            isDigitChar d2 = true ∧
            format_number (.finite q) = ⟨sgn ++ d0 :: '.' :: d1 :: d2 :: 'e' :: '+' :: es⟩)
    ∧ (∀ n : ℤ, |n| ≤ 10 ^ 10 →
        format_number (.finite (n : ℚ)) = intRepr n ∧ '.' ∉ (intRepr n).data ∧
          parseFloat (intRepr n) = some (n : ℚ))
    ∧ (∀ q : ℚ, |q| ≤ (10 : ℚ) ^ 10 → q.den ≠ 1 →
        format_number (.finite q) = ⟨decChars (rhe (qmul q (mkRat ((10 : ℤ) ^ 10) 1)))⟩ ∧
          qmul q (mkRat ((10 : ℤ) ^ 10) 1) = q * 10 ^ 10) := by
  refine ⟨⟨rfl, rfl, rfl⟩, ?_, ?_, ?_⟩
  · intro q hq
    have hbig : mkRat ((10 : ℤ) ^ 10) 1 < |q| := by rwa [mkRat_pow10_eq]
    rcases sciChars_shape q with ⟨sgn, es, h1, h2, h3, d0, d1, d2, h4, h5, h6, h7⟩
    exact ⟨sgn, es, h1, h2, h3, d0, d1, d2, h4, h5, h6, by
      rw [format_number, if_pos hbig, h7]⟩
  · intro n h
    exact ⟨format_number_intCast n h, intChars_no_dot n, parseFloat_intRepr n⟩
  · intro q hq hden
    have habs : ¬ (mkRat ((10 : ℤ) ^ 10) 1 < |q|) := by
      rw [mkRat_pow10_eq]; exact not_lt.2 hq
    constructor
    · rw [format_number, if_neg habs, if_neg hden]
    · rw [qmul_eq, mkRat_pow10_eq]

theorem C2_witness :
    format_number .inf = errLit ∧
      (format_number (.finite ((5 : ℤ) : ℚ)) = intRepr 5 ∧
        parseFloat (intRepr 5) = some ((5 : ℤ) : ℚ)) ∧
      format_number (.finite (mkRat 3 2)) =
        ⟨decChars (rhe (qmul (mkRat 3 2) (mkRat ((10 : ℤ) ^ 10) 1)))⟩ := by
  refine ⟨C2_format_number.1.2.1, ⟨(C2_format_number.2.2.1 5 (by norm_num)).1,
    (C2_format_number.2.2.1 5 (by norm_num)).2.2⟩,
    (C2_format_number.2.2.2 (mkRat 3 2) (by rw [Rat.mkRat_eq_div, abs_of_nonneg (by norm_num)]; norm_num) (by decide)).1⟩

set_option maxRecDepth 8000 in
/-- C6: factorial behaviour at the claimed inputs.  `calculate_factorial`
is a total Lean function, mirroring the source's catch-all `except`: no
input raises. -/
theorem C6_factorial :
    calculate_factorial 5 = "120" ∧
    isErrorStr (calculate_factorial 170) = false ∧
    calculate_factorial 171 = "エラー: 数が大きすぎます" ∧
    calculate_factorial (mkRat 7 2) = "エラー: 整数のみ" ∧
    calculate_factorial (-2) = "エラー: 正の数のみ" := by
  exact ⟨by decide, by decide, by decide, by decide, by decide⟩

/-- C1: with pending operator `÷`, accumulator `a` and a display parsing
to `b`, the equals evaluation writes `format_number(a / b)` to the display
when `b ≠ 0`; when `b = 0` the division branch produces `float('inf')`
(`format_number .inf`), which the formatter renders as the error literal —
no exception escapes. -/
theorem C1_division (s : AppState) (a b : ℚ)
    (hop : s.calculator.operator = "÷") (hacc : s.calculator.operand1 = a)
    (hdisp : parseFloat s.display = some b) (herr : isErrorStr s.display = false) :
    (b ≠ 0 → (button_clicked s "=").display = format_number (.finite (a / b))) ∧
    (b = 0 → calculate a b "÷" = format_number .inf ∧
      (button_clicked s "=").display = errLit) := by
  have hbc : button_clicked s "=" = handle_equals s := by
    simp [button_clicked, herr, digitKeys]
  have hdd : (button_clicked s "=").display = calculate a b "÷" := by
    rw [hbc, handle_equals, hdisp]
    simp [hop, hacc]
  constructor
  · intro hb
    rw [hdd, calculate]
    simp [hb, qdiv_eq]
  · intro hb
    subst hb
    constructor
    · simp [calculate]
    · rw [hdd]
      simp [calculate]
      rfl

theorem C1_witness :
    (button_clicked
      { calculator := { memory := 0, operator := "÷", operand1 := 3, new_operand := true }
        display := "6" } "=").display = format_number (.finite ((3 : ℚ) / 6)) :=
  (C1_division _ 3 6 rfl rfl (by decide) (by decide)).1 (by norm_num)

/-- C7: the concrete button sequences from the claim, and: pressing `=` on
any state whose display parses evaluates `operand1 (pending op) display`
onto the display and then resets the calculator (operator `+`, accumulator
`0`, awaiting-new-entry true, memory untouched) whether or not the
evaluation produced an error string. -/
theorem C7_equals (s : AppState) (v : ℚ)
    (hv : parseFloat s.display = some v) (herr : isErrorStr s.display = false) :
    ((pressAll initState ["2", "+", "3", "="]).display = "5" ∧
     (pressAll initState ["2", "+", "3", "=", "+", "4", "="]).display = "9") ∧
    button_clicked s "=" =
      { s with display := calculate s.calculator.operand1 v s.calculator.operator
               calculator := s.calculator.reset } := by
  refine ⟨⟨by decide, by decide⟩, ?_⟩
  have hbc : button_clicked s "=" = handle_equals s := by
    simp [button_clicked, herr, digitKeys]
  rw [hbc, handle_equals, hv]

theorem C7_witness :
    button_clicked initState "=" =
      { initState with
          display := calculate initState.calculator.operand1 0 initState.calculator.operator
          calculator := initState.calculator.reset } :=
  (C7_equals initState 0 (by decide) (by decide)).2

theorem mem_handle_clear (s : AppState) :
    (handle_clear s).calculator.memory = s.calculator.memory := rfl

theorem mem_handle_factorial (s : AppState) :
    (handle_factorial s).calculator.memory = s.calculator.memory := by
  rw [handle_factorial]
  cases parseFloat s.display <;> rfl

theorem mem_handle_sqrt (s : AppState) :
    (handle_sqrt s).calculator.memory = s.calculator.memory := by
  rw [handle_sqrt]
  cases parseFloat s.display <;> rfl

theorem mem_handle_pi (s : AppState) :
    (handle_pi s).calculator.memory = s.calculator.memory := rfl

theorem mem_handle_square (s : AppState) :
    (handle_square s).calculator.memory = s.calculator.memory := by
  rw [handle_square]
  cases parseFloat s.display <;> rfl

theorem mem_handle_reciprocal (s : AppState) :
    (handle_reciprocal s).calculator.memory = s.calculator.memory := by
  rw [handle_reciprocal]
  cases parseFloat s.display <;> rfl

theorem mem_handle_digit (s : AppState) (d : String) :
    (handle_digit s d).calculator.memory = s.calculator.memory := by
  rw [handle_digit]
  split
  · rfl
  · split <;> rfl

theorem mem_handle_operator (s : AppState) (op : String) :
    (handle_operator s op).calculator.memory = s.calculator.memory := by
  rw [handle_operator]
  cases parseFloat s.display with
  | none => rfl
  | some v =>
    simp only []
    split
    · rfl
    · cases parseFloat (calculate s.calculator.operand1 v s.calculator.operator) <;> rfl

theorem mem_handle_equals (s : AppState) :
    (handle_equals s).calculator.memory = s.calculator.memory := by
  rw [handle_equals]
  cases parseFloat s.display <;> rfl

theorem mem_handle_percentage (s : AppState) :
    (handle_percentage s).calculator.memory = s.calculator.memory := by
  rw [handle_percentage]
  cases parseFloat s.display <;> rfl

theorem mem_handle_sign_change (s : AppState) :
    (handle_sign_change s).calculator.memory = s.calculator.memory := by
  rw [handle_sign_change]
  cases parseFloat s.display <;> rfl

set_option maxHeartbeats 1600000 in
/-- C8: `reset` restores operator `+`, accumulator `0`, awaiting-new-entry
true and leaves `memory` unchanged; every button press outside the four
memory operations (including AC clears, operators and equals, whose
handlers call `reset`) leaves `memory` unchanged; the explicit
memory-clear sets `memory` to `0` (provided the display parses, since the
handler reads the display before dispatching). -/
theorem C8_memory :
    (∀ c : Calc, c.reset.memory = c.memory ∧ c.reset.operator = "+" ∧
      c.reset.operand1 = 0 ∧ c.reset.new_operand = true) ∧
    (∀ (s : AppState) (d : String), ¬(d = "MC" ∨ d = "MR" ∨ d = "M+" ∨ d = "M-") →
      (button_clicked s d).calculator.memory = s.calculator.memory) ∧
    (∀ (s : AppState) (v : ℚ), parseFloat s.display = some v →
      (button_clicked s "MC").calculator.memory = 0) := by
  refine ⟨fun c => ⟨rfl, rfl, rfl, rfl⟩, ?_, ?_⟩
  · intro s d hd
    rw [button_clicked, if_neg hd]
    split
    · exact mem_handle_clear s
    split
    · exact mem_handle_factorial s
    split
    · exact mem_handle_sqrt s
    split
    · exact mem_handle_pi s
    split
    · exact mem_handle_square s
    split
    · exact mem_handle_reciprocal s
    split
    · exact mem_handle_digit s d
    split
    · exact mem_handle_operator s d
    split
    · exact mem_handle_equals s
    split
    · exact mem_handle_percentage s
    split
    · exact mem_handle_sign_change s
    rfl
  · intro s v hv
    rw [button_clicked, if_pos (Or.inl rfl), handle_memory_operation, hv]
    rfl

theorem C8_witness :
    ({ memory := 7, operator := "×", operand1 := 5, new_operand := false } : Calc).reset.memory = 7 ∧
    (button_clicked { calculator := { memory := 7, operator := "+", operand1 := 0, new_operand := true }, display := "3" } "AC").calculator.memory = 7 ∧
    (button_clicked { calculator := { memory := 7, operator := "+", operand1 := 0, new_operand := true }, display := "3" } "MC").calculator.memory = 0 := by
  refine ⟨(C8_memory.1 _).1, ?_, ?_⟩
  · exact C8_memory.2.1 _ "AC" (by decide)
  · exact C8_memory.2.2 _ 3 (by decide)

/-- C10: pressing sign-toggle when the display parses to zero writes
exactly "0" to the display (the zero case is special-cased to
`format_number(0)`, which carries no sign). -/
theorem C10_sign_zero (s : AppState)
    (hv : parseFloat s.display = some 0) (herr : isErrorStr s.display = false) :
    (button_clicked s "+/-").display = "0" := by
  have hbc : button_clicked s "+/-" = handle_sign_change s := by
    simp [button_clicked, herr, digitKeys]
  rw [hbc, handle_sign_change, hv]
  show format_number (.finite (if (0 : ℚ) ≠ 0 then qneg 0 else 0)) = "0"
  rw [if_neg (by norm_num)]
  decide

theorem C10_witness :
    (button_clicked initState "+/-").display = "0" :=
  C10_sign_zero initState (by decide) (by decide)

/-- C4 counterexample: in an error-display state, pressing the digit `5`
leaves the display at "0" — the press only clears; it is not processed
after the reset (processing it after a reset would leave "5"). -/
theorem C4_counterexample :
    (button_clicked
      { calculator := { memory := 0, operator := "+", operand1 := 0, new_operand := true }
        display := "エラー" } "5").display = "0" ∧
    (button_clicked (handle_clear
      { calculator := { memory := 0, operator := "+", operand1 := 0, new_operand := true }
        display := "エラー" }) "5").display = "5" ∧
    ("0" : String) ≠ "5" :=
  ⟨by decide, by decide, by decide⟩

/-- C4 (amended): once the display holds an error string, any button press
other than the four memory operations acts exactly as a clear: the state is
reset (display "0", operator `+`, accumulator `0`, awaiting-new-entry true,
memory untouched) and the pressed input itself is discarded, not
processed. -/
theorem C4_error_reset (s : AppState) (d : String)
    (herr : isErrorStr s.display = true)
    (hd : ¬(d = "MC" ∨ d = "MR" ∨ d = "M+" ∨ d = "M-")) :
    button_clicked s d = handle_clear s ∧
    (button_clicked s d).display = "0" ∧
    (button_clicked s d).calculator.operator = "+" ∧
    (button_clicked s d).calculator.operand1 = 0 ∧
    (button_clicked s d).calculator.new_operand = true ∧
    (button_clicked s d).calculator.memory = s.calculator.memory := by
  have h : button_clicked s d = handle_clear s := by
    rw [button_clicked, if_neg hd, if_pos (Or.inl herr)]
  exact ⟨h, by rw [h]; rfl, by rw [h]; rfl, by rw [h]; rfl, by rw [h]; rfl, by rw [h]; rfl⟩

theorem C4_witness :
    (button_clicked
      { calculator := { memory := 2, operator := "×", operand1 := 9, new_operand := false }
        display := "エラー: 整数のみ" } "7").display = "0" ∧
    (button_clicked
      { calculator := { memory := 2, operator := "×", operand1 := 9, new_operand := false }
        display := "エラー: 整数のみ" } "7").calculator.memory = 2 :=
  ⟨(C4_error_reset _ "7" (by decide) (by decide)).2.1,
   (C4_error_reset _ "7" (by decide) (by decide)).2.2.2.2.2⟩

theorem buildForecast_ok_elim (rep : String) (a : AreaEntry) (t : String) (i : ℕ)
    (r : WeatherForecast) (hok : buildForecast rep a t i = .ok r) :
    r.area_code = a.code ∧ r.area_name = a.name ∧ r.forecast_date = t ∧
    r.report_datetime = rep ∧
    seqField a.weathers i = .ok r.weather ∧
    tempHighField a.temps i = .ok r.temperature_high ∧
    tempLowField a.temps i = .ok r.temperature_low ∧
    popField a.pops i = .ok r.precipitation_probability ∧
    seqField a.winds i = .ok r.wind_direction ∧
    seqField a.windLevels i = .ok r.wind_speed := by
  rw [buildForecast] at hok
  cases h1 : seqField a.weathers i with
  | error e => rw [h1] at hok; cases hok
  | ok w =>
    rw [h1] at hok
    cases h2 : tempHighField a.temps i with
    | error e => rw [h2] at hok; cases hok
    | ok th =>
      rw [h2] at hok
      cases h3 : tempLowField a.temps i with
      | error e => rw [h3] at hok; cases hok
      | ok tl =>
        rw [h3] at hok
        cases h4 : popField a.pops i with
        | error e => rw [h4] at hok; cases hok
        | ok pp =>
          rw [h4] at hok
          cases h5 : seqField a.winds i with
          | error e => rw [h5] at hok; cases hok
          | ok wd =>
            rw [h5] at hok
            cases h6 : seqField a.windLevels i with
            | error e => rw [h6] at hok; cases hok
            | ok wsp =>
              rw [h6] at hok
              cases hok
              exact ⟨rfl, rfl, rfl, rfl, rfl, rfl, rfl, rfl, rfl, rfl⟩

/-- The payload of C3's concrete example: one time-series block,
`timeDefines = [t0, t1]`, one area with `temps = ["28", "19"]`. -/
def c3ExamplePayload : Payload :=
  { reportDatetime := "r0"
    timeSeries :=
      [{ timeDefines := ["t0", "t1"]
         areas := [{ code := "130010", name := "Tokyo", weathers := none
                     temps := some ["28", "19"], pops := none, winds := none
                     windLevels := none }] }] }

/-- A payload whose `weathers` array exists but is shorter than
`timeDefines`: index 1 raises `IndexError` instead of yielding an absent
weather. -/
def c3ShortPayload : Payload :=
  { reportDatetime := "r0"
    timeSeries :=
      [{ timeDefines := ["t0", "t1"]
         areas := [{ code := "130010", name := "Tokyo", weathers := some ["sunny"]
                     temps := none, pops := none, winds := none
                     windLevels := none }] }] }

/-- C3 counterexample: on a payload whose `weathers` array exists with
index 0 but not index 1, the claim expects a second record (at `t1`) with
`weather` absent; the code instead aborts the ingestion with an
`IndexError` after the first record, producing only one record. -/
theorem C3_counterexample :
    (save_current_forecast c3ShortPayload).2 = some "IndexError" ∧
    (save_current_forecast c3ShortPayload).1.length = 1 ∧
    (save_current_forecast c3ShortPayload).1 =
      [{ area_code := "130010", area_name := "Tokyo", forecast_date := "t0"
         report_datetime := "r0", weather := some "sunny", temperature_high := none
         temperature_low := none, precipitation_probability := none
         wind_direction := none, wind_speed := none }] :=
  ⟨by decide, by decide, by decide⟩

/-- C3 (amended): the concrete example produces exactly the two claimed
records; on every successfully built record the fields decompose into the
per-array extractors; a missing array yields an absent field, a present
array with a non-empty entry at the probed index yields the parsed value,
and a present `temps` array with no element at `i+1` yields an absent low
temperature (that access is length-guarded); but a present
`weathers`/`temps`/`pops`/`winds`/`windLevels` array lacking index `i`
aborts the record build with an `IndexError` rather than yielding an
absent field. -/
theorem C3_ingest :
    (save_current_forecast c3ExamplePayload =
      ([{ area_code := "130010", area_name := "Tokyo", forecast_date := "t0"
          report_datetime := "r0", weather := none, temperature_high := some 28
          temperature_low := some 19, precipitation_probability := none
          wind_direction := none, wind_speed := none },
        { area_code := "130010", area_name := "Tokyo", forecast_date := "t1"
          report_datetime := "r0", weather := none, temperature_high := some 19
          temperature_low := none, precipitation_probability := none
          wind_direction := none, wind_speed := none }], none))
    ∧ (∀ rep (a : AreaEntry) t i r, buildForecast rep a t i = .ok r →
        r.area_code = a.code ∧ r.area_name = a.name ∧ r.forecast_date = t ∧
        r.report_datetime = rep ∧
        seqField a.weathers i = .ok r.weather ∧
        tempHighField a.temps i = .ok r.temperature_high ∧
        tempLowField a.temps i = .ok r.temperature_low ∧
        popField a.pops i = .ok r.precipitation_probability ∧
        seqField a.winds i = .ok r.wind_direction ∧
        seqField a.windLevels i = .ok r.wind_speed)
    ∧ (∀ i, seqField none i = .ok none ∧ tempHighField none i = .ok none ∧
        tempLowField none i = .ok none)
    ∧ (∀ (l : List String) i w, l.get? i = some w → seqField (some l) i = .ok (some w))
    ∧ (∀ (l : List String) i, l.get? i = none → seqField (some l) i = .error "IndexError")
    ∧ (∀ (l : List String) i, l.get? i = none →
        tempHighField (some l) i = .error "IndexError")
    ∧ (∀ (l : List String) i, l.get? i = some "" → tempHighField (some l) i = .ok none)
    ∧ (∀ (l : List String) i w v, l.get? i = some w → w ≠ "" → parseFloat w = some v →
        tempHighField (some l) i = .ok (some v))
    ∧ (∀ (l : List String) i, l.get? (i + 1) = none → tempLowField (some l) i = .ok none)
    ∧ (∀ (l : List String) i w v, l.get? (i + 1) = some w → w ≠ "" →
        parseFloat w = some v → tempLowField (some l) i = .ok (some v))
    ∧ (∀ rep (a : AreaEntry) t i ws, a.weathers = some ws → ws.get? i = none →
        buildForecast rep a t i = .error "IndexError") := by
  refine ⟨by decide, ?_, fun i => ⟨rfl, rfl, rfl⟩, ?_, ?_, ?_, ?_, ?_, ?_, ?_, ?_⟩
  · intro rep a t i r hok
    exact buildForecast_ok_elim rep a t i r hok
  · intro l i w h
    rw [List.get?_eq_getElem?] at h
    simp [seqField, h]
  · intro l i h
    rw [List.get?_eq_getElem?] at h
    simp [seqField, h]
  · intro l i h
    rw [List.get?_eq_getElem?] at h
    simp [tempHighField, h]
  · intro l i h
    rw [List.get?_eq_getElem?] at h
    simp [tempHighField, h]
  · intro l i w v hw hne hv
    rw [List.get?_eq_getElem?] at hw
    simp [tempHighField, hw, hne, hv]
  · intro l i h
    rw [List.get?_eq_getElem?] at h
    simp [tempLowField, h]
  · intro l i w v hw hne hv
    rw [List.get?_eq_getElem?] at hw
    simp [tempLowField, hw, hne, hv]
  · intro rep a t i ws hws h
    rw [List.get?_eq_getElem?] at h
    rw [buildForecast]
    have hsf : seqField a.weathers i = .error "IndexError" := by
      rw [hws]; simp [seqField, h]
    rw [hsf]

theorem C3_witness :
    seqField (some ["sunny"]) 0 = .ok (some "sunny") ∧
    tempLowField (some ["28"]) 0 = .ok none :=
  ⟨C3_ingest.2.2.2.1 ["sunny"] 0 "sunny" rfl,
   C3_ingest.2.2.2.2.2.2.2.2.1 ["28"] 0 rfl⟩

theorem ingestTimes_attribution (rep : String) (a : AreaEntry) :
    ∀ (tds : List String) (i : ℕ) (r : WeatherForecast),
      r ∈ (ingestTimes rep a tds i).1 → r.area_code = a.code ∧ r.area_name = a.name := by
  intro tds
  induction tds with
  | nil => intro i r hr; simp [ingestTimes] at hr
  | cons t rest ih =>
    intro i r hr
    rw [ingestTimes] at hr
    cases hb : buildForecast rep a t i with
    | error e => rw [hb] at hr; simp at hr
    | ok r0 =>
      rw [hb] at hr
      simp only [List.mem_cons] at hr
      rcases hr with rfl | hr
      · have hok := buildForecast_ok_elim rep a t i _ hb
        exact ⟨hok.1, hok.2.1⟩
      · exact ih (i + 1) r hr

theorem ingestAreas_attribution (rep : String) (tds : List String) :
    ∀ (areas : List AreaEntry) (r : WeatherForecast),
      r ∈ (ingestAreas rep tds areas).1 →
        ∃ ae ∈ areas, r.area_code = ae.code ∧ r.area_name = ae.name := by
  intro areas
  induction areas with
  | nil => intro r hr; simp [ingestAreas] at hr
  | cons a rest ih =>
    intro r hr
    rw [ingestAreas] at hr
    rcases he : (ingestTimes rep a tds 0).2 with _ | e
    · rw [he] at hr
      simp only [List.mem_append] at hr
      rcases hr with hr | hr
      · exact ⟨a, by simp, ingestTimes_attribution rep a tds 0 r hr⟩
      · obtain ⟨ae, hae, hc⟩ := ih r hr
        exact ⟨ae, by simp [hae], hc⟩
    · rw [he] at hr
      exact ⟨a, by simp, ingestTimes_attribution rep a tds 0 r hr⟩

theorem ingestSeries_attribution (rep : String) :
    ∀ (tss : List TimeSeries) (r : WeatherForecast),
      r ∈ (ingestSeries rep tss).1 →
        ∃ ts ∈ tss, ∃ ae ∈ ts.areas, r.area_code = ae.code ∧ r.area_name = ae.name := by
  intro tss
  induction tss with
  | nil => intro r hr; simp [ingestSeries] at hr
  | cons ts rest ih =>
    intro r hr
    rw [ingestSeries] at hr
    rcases he : (ingestAreas rep ts.timeDefines ts.areas).2 with _ | e
    · rw [he] at hr
      simp only [List.mem_append] at hr
      rcases hr with hr | hr
      · obtain ⟨ae, hae, hc⟩ := ingestAreas_attribution rep ts.timeDefines ts.areas r hr
        exact ⟨ts, by simp, ae, hae, hc⟩
      · obtain ⟨ts2, hts2, ae, hae, hc⟩ := ih r hr
        exact ⟨ts2, by simp [hts2], ae, hae, hc⟩
    · rw [he] at hr
      obtain ⟨ae, hae, hc⟩ := ingestAreas_attribution rep ts.timeDefines ts.areas r hr
      exact ⟨ts, by simp, ae, hae, hc⟩

/-- Payload used against C5: fetched for requested code "014030" (mapped
to "014100"), its area entries carry the code "014100". -/
def c5Payload : Payload :=
  { reportDatetime := "r0"
    timeSeries :=
      [{ timeDefines := ["t0"]
         areas := [{ code := "014100", name := "Tokachi", weathers := some ["晴れ"]
                     temps := none, pops := none, winds := none
                     windLevels := none }] }] }

/-- C5 counterexample: for the overridden request "014030" the fetch goes
to "014100", and the stored record is attributed to the payload's own area
code "014100" — not to the originally requested "014030". -/
theorem C5_counterexample :
    (fetch_forecast "014030" c5Payload).1 = "014100" ∧
    (fetch_forecast "014030" c5Payload).2.1.length = 1 ∧
    (∀ r ∈ (fetch_forecast "014030" c5Payload).2.1, r.area_code = "014100") ∧
    ¬ (∀ r ∈ (fetch_forecast "014030" c5Payload).2.1, r.area_code = "014030") :=
  ⟨by decide, by decide, by decide, by decide⟩

/-- C5 (amended): the network fetch is issued for the substituted code
(the override table maps "014030" to "014100" and leaves unmapped codes
alone), but the records produced from the fetched payload are attributed
to the area codes and names carried inside the payload itself — they are
not re-attributed to the originally requested code. -/
theorem C5_attribution :
    mappedCode "014030" = "014100" ∧
    (∀ c, area_code_mapping.lookup c = none → mappedCode c = c) ∧
    (∀ (code : String) (p : Payload), (fetch_forecast code p).1 = mappedCode code) ∧
    (∀ (p : Payload) (r : WeatherForecast), r ∈ (save_current_forecast p).1 →
      ∃ ts ∈ p.timeSeries, ∃ ae ∈ ts.areas, r.area_code = ae.code ∧
        r.area_name = ae.name) := by
  refine ⟨rfl, ?_, fun code p => rfl, ?_⟩
  · intro c hc
    rw [mappedCode, hc]
    rfl
  · intro p r hr
    exact ingestSeries_attribution p.reportDatetime p.timeSeries r hr

theorem C5_witness :
    mappedCode "130000" = "130000" ∧
    (∃ ts ∈ c5Payload.timeSeries, ∃ ae ∈ ts.areas,
      ({ area_code := "014100", area_name := "Tokachi", forecast_date := "t0"
         report_datetime := "r0", weather := some "晴れ", temperature_high := none
         temperature_low := none, precipitation_probability := none
         wind_direction := none, wind_speed := none } : WeatherForecast).area_code = ae.code ∧
      ({ area_code := "014100", area_name := "Tokachi", forecast_date := "t0"
         report_datetime := "r0", weather := some "晴れ", temperature_high := none
         temperature_low := none, precipitation_probability := none
         wind_direction := none, wind_speed := none } : WeatherForecast).area_name = ae.name) :=
  ⟨C5_attribution.2.1 "130000" (by decide),
   C5_attribution.2.2.2 c5Payload _ (by decide)⟩

/-- Invariant of the `groups` dictionary while `group_areas` runs over a
list of areas drawn from `A`: every key was created by a center entry of
`A`, and every child entry under a key comes from a non-center entry of
`A` whose parent is that key. -/
def GroupsOK (A : List (String × AreaInfo)) (groups : List (String × AreaGroup)) : Prop :=
  ∀ kg ∈ groups,
    (∃ a : AreaInfo, (kg.1, a) ∈ A ∧ a.type = "center") ∧
    ∀ ch ∈ kg.2.children,
      ∃ a : AreaInfo, (ch.1, a) ∈ A ∧ a.type ≠ "center" ∧ a.parent = some kg.1

theorem groupStep_ok {A : List (String × AreaInfo)} {groups : List (String × AreaGroup)}
    (hg : GroupsOK A groups) {ca : String × AreaInfo} (hca : ca ∈ A) :
    GroupsOK A (groupStep groups ca) := by
  rw [groupStep]
  split
  · next hc =>
    rw [setGroupInfo]
    split
    · intro kg hkg
      rw [List.mem_map] at hkg
      obtain ⟨kg0, hkg0, hkg⟩ := hkg
      by_cases he : kg0.1 = ca.1
      · rw [if_pos he] at hkg
        subst hkg
        exact ⟨⟨ca.2, by rw [he]; exact (by cases ca; exact hca), hc⟩,
          fun ch hch => (hg kg0 hkg0).2 ch hch⟩
      · rw [if_neg he] at hkg
        subst hkg
        exact hg kg0 hkg0
    · intro kg hkg
      rw [List.mem_append] at hkg
      rcases hkg with hkg | hkg
      · exact hg kg hkg
      · simp only [List.mem_singleton] at hkg
        subst hkg
        exact ⟨⟨ca.2, by exact (by cases ca; exact hca), hc⟩, by simp⟩
  · next hc =>
    cases hp : ca.2.parent with
    | none => exact hg
    | some p =>
      show GroupsOK A
        (if (groups.lookup p).isSome = true then addGroupChild groups p ca.1 ca.2.name
         else groups)
      by_cases hl : (groups.lookup p).isSome = true
      · rw [if_pos hl]
        rw [addGroupChild]
        intro kg hkg
        rw [List.mem_map] at hkg
        obtain ⟨kg0, hkg0, hkg⟩ := hkg
        by_cases he : kg0.1 = p
        · rw [if_pos he] at hkg
          subst hkg
          refine ⟨(hg kg0 hkg0).1, fun ch hch => ?_⟩
          rw [List.mem_append] at hch
          rcases hch with hch | hch
          · exact (hg kg0 hkg0).2 ch hch
          · simp only [List.mem_singleton] at hch
            subst hch
            exact ⟨ca.2, by exact (by cases ca; exact hca), hc, by rw [hp, he]⟩
        · rw [if_neg he] at hkg
          subst hkg
          exact hg kg0 hkg0
      · rw [if_neg hl]
        exact hg

theorem foldl_groupStep_ok (A : List (String × AreaInfo)) :
    ∀ (l : List (String × AreaInfo)) (groups : List (String × AreaGroup)),
      (∀ x ∈ l, x ∈ A) → GroupsOK A groups →
      GroupsOK A (l.foldl groupStep groups) := by
  intro l
  induction l with
  | nil => intro groups _ hg; exact hg
  | cons x rest ih =>
    intro groups hl hg
    rw [List.foldl_cons]
    exact ih _ (fun y hy => hl y (by simp [hy]))
      (groupStep_ok hg (hl x (by simp)))

theorem group_areas_ok (areas : List (String × AreaInfo)) :
    GroupsOK areas (group_areas areas) :=
  foldl_groupStep_ok areas areas [] (fun x hx => hx) (by intro kg hkg; cases hkg)

theorem assoc_key_unique {α : Type} {l : List (String × α)} (hnd : (l.map Prod.fst).Nodup)
    {k : String} {x y : α} (hx : (k, x) ∈ l) (hy : (k, y) ∈ l) : x = y := by
  induction l with
  | nil => cases hx
  | cons a rest ih =>
    rw [List.map_cons, List.nodup_cons] at hnd
    rcases List.mem_cons.1 hx with rfl | hx2
    · rcases List.mem_cons.1 hy with h | hy2
      · cases h; rfl
      · exact absurd (List.mem_map_of_mem Prod.fst hy2) (by simpa using hnd.1)
    · rcases List.mem_cons.1 hy with rfl | hy2
      · exact absurd (List.mem_map_of_mem Prod.fst hx2) (by simpa using hnd.1)
      · exact ih hnd.2 hx2 hy2

/-- C9: an office whose `parent` code is not the code of any loaded center
never appears among the children of any group produced by `group_areas`
(which is a total function — no exception is thrown — and leaves the area
list itself untouched). -/
theorem C9_orphan_offices (areas : List (String × AreaInfo)) (oc : String)
    (oa : AreaInfo) (p : String)
    (hmem : (oc, oa) ∈ areas) (hoff : oa.type ≠ "center")
    (hpar : oa.parent = some p)
    (horph : ∀ ca ∈ areas, ca.2.type = "center" → ca.1 ≠ p)
    (hnodup : (areas.map Prod.fst).Nodup) :
    oc ∉ childCodes (group_areas areas) := by
  intro hin
  rw [childCodes, List.mem_flatMap] at hin
  obtain ⟨kg, hkg, hin⟩ := hin
  rw [List.mem_map] at hin
  obtain ⟨ch, hch, hcode⟩ := hin
  obtain ⟨⟨ak, hak, hakc⟩, hchild⟩ := group_areas_ok areas kg hkg
  obtain ⟨a2, ha2, ha2t, ha2p⟩ := hchild ch hch
  rw [hcode] at ha2
  have heq : a2 = oa := assoc_key_unique hnodup ha2 hmem
  subst heq
  rw [hpar] at ha2p
  cases ha2p
  exact horph (kg.1, ak) hak hakc rfl

theorem C9_witness :
    "o2" ∉ childCodes (group_areas
      [("c1", { name := "Center1", parent := none, type := "center" }),
       ("o1", { name := "Office1", parent := some "c1", type := "office" }),
       ("o2", { name := "Office2", parent := some "zz", type := "office" })]) :=
  C9_orphan_offices _ "o2" { name := "Office2", parent := some "zz", type := "office" }
    "zz" (by decide) (by decide) rfl (by decide) (by decide)
